import Mathlib

/-!
Shallow embedding of the live-stream chat AI agent client
(src/frontend/live-stream-chat-ai-agent.user.js) and proofs about it.

Machine integers are modelled as Nat/Int; timestamps are epoch
milliseconds (Nat).  Blobs are byte lists with a MIME type string.
-/

namespace LiveAgent

/-! ## Constants (script header) -/

def MAX_CHAT_LENGTH : Nat := 20
def FORCE_CHAT_LENGTH : Nat := 0
def CHAT_SEND_DELAY_MIN_MS : Nat := 3000
def CHAT_SEND_DELAY_MAX_MS : Nat := 6000
def MAX_BUFFER_SIZE : Nat := 500

/-! ## Data model -/

/-- One captured chat event, as stored in `realtimeChatBuffer`. -/
structure ChatMessage where
  uname : String
  content : String
  uid : Option String
  platform : String
  timestamp : Nat
deriving Repr, DecidableEq

/-- A binary blob: raw bytes plus a MIME type, mirroring the DOM `Blob`. -/
structure Blob where
  data : List Nat
  type : String
deriving Repr, DecidableEq

def Blob.size (b : Blob) : Nat := b.data.length

/-- `new Blob(chunks, { type: chunks[0].type })` — concatenation typed with the
first chunk's type.  Only called on nonempty lists in the source. -/
def mergeBlobs (chunks : List Blob) : Blob :=
  { data := (chunks.map Blob.data).flatten
    type := ((chunks.head?).map Blob.type).getD "" }

/-- Ambient globals read by `sendDataToServer`: `roomId` and
`currentPlatformAdapter.platformName`. -/
structure Config where
  roomId : Option String
  platformName : String
deriving Repr, DecidableEq

/-- The mutable module-level state touched by the upload client. -/
structure AgentState where
  realtimeChatBuffer : List ChatMessage
  isSending : Bool
  isAccumulating : Bool
  accumulatedChunks : List Blob
deriving Repr, DecidableEq

/-- One multipart request as assembled into `formData`. -/
structure UploadRequest where
  audio : Option Blob
  chats : List ChatMessage
  roomId : String
  platform : String
  screenshot : Option Blob
  startTimestamp : Nat
  endTimestamp : Nat
deriving Repr, DecidableEq

/-- `chat.timestamp >= currentRecordingStartTimestamp && chat.timestamp < currentRecordingEndTimestamp` -/
def chatInInterval (s e : Nat) (c : ChatMessage) : Bool :=
  decide (s ≤ c.timestamp) && decide (c.timestamp < e)

/-- Step 1 of `sendDataToServer`: the interval's chat slice. -/
def chatsFor (buf : List ChatMessage) (s e : Nat) : List ChatMessage :=
  buf.filter (chatInInterval s e)

/-- Step 2 of `sendDataToServer`: keep only messages with `timestamp >= end`. -/
def pruneBuffer (buf : List ChatMessage) (e : Nat) : List ChatMessage :=
  buf.filter (fun c => decide (e ≤ c.timestamp))

/-- `sendDataToServer(audioBlob, start, end, screenshotBlob)`.
Returns the new module state together with the request put on the wire,
if any (`none` when the call returns without sending). -/
def sendDataToServer (cfg : Config) (st : AgentState) (audioBlob : Option Blob)
    (currentStart currentEnd : Nat) (screenshotBlob : Option Blob) :
    AgentState × Option UploadRequest :=
  -- 1. filter the realtime buffer for this interval's chats
  let chatsForThisInterval := chatsFor st.realtimeChatBuffer currentStart currentEnd
  -- 2. prune the realtime buffer (drop everything older than `end`)
  let st1 : AgentState :=
    { st with realtimeChatBuffer := pruneBuffer st.realtimeChatBuffer currentEnd }
  -- 3. nothing valid to send?
  if (audioBlob.all fun b => b.size == 0) &&
      chatsForThisInterval.isEmpty && screenshotBlob.isNone then
    (st1, none)
  else if st1.isSending then
    -- 4. a request is in flight: accumulate the audio (chats/screenshot dropped)
    let st2 : AgentState :=
      match audioBlob with
      | some b =>
        if b.size > 0 then
          if ¬ st1.isAccumulating then
            { st1 with accumulatedChunks := [b], isAccumulating := true }
          else
            { st1 with accumulatedChunks := st1.accumulatedChunks ++ [b] }
        else st1
      | none => st1
    (st2, none)
  else
    -- merge accumulated chunks with the current one (current blob first)
    let merged : Option Blob × AgentState :=
      if st1.isAccumulating ∧ st1.accumulatedChunks ≠ [] then
        let chunksToMerge :=
          match audioBlob with
          | some b => b :: st1.accumulatedChunks
          | none => st1.accumulatedChunks
        -- chunksToMerge is nonempty here, so the source's `length > 0` guard
        -- always takes the merge branch
        (some (mergeBlobs chunksToMerge),
          { st1 with accumulatedChunks := [], isAccumulating := false })
      else (audioBlob, st1)
  -- 5. acquire the sending lock and assemble the multipart body
    let st4 : AgentState := { merged.2 with isSending := true }
    let req : UploadRequest :=
      { audio :=
          match merged.1 with
          | some b => if b.size > 0 then some b else none
          | none => none
        chats := chatsForThisInterval
        roomId := cfg.roomId.getD "unknown"
        platform := cfg.platformName
        screenshot :=
          match screenshotBlob with
          | some b => if b.size > 0 then some b else none
          | none => none
        startTimestamp := currentStart
        endTimestamp := currentEnd }
    (st4, some req)

/-- The `xhr` completion handler (`readyState === 4`): release the lock, then,
if an accumulation exists, `shift()` its first blob and re-enter
`sendDataToServer` with the closure's interval timestamps and no screenshot. -/
def uploadComplete (cfg : Config) (st : AgentState)
    (currentStart currentEnd : Nat) : AgentState × Option UploadRequest :=
  let st1 : AgentState := { st with isSending := false }
  if st1.isAccumulating ∧ st1.accumulatedChunks ≠ [] then
    match st1.accumulatedChunks with
    | [] => (st1, none)  -- unreachable under the guard
    | nextBlob :: rest =>
      let st2 : AgentState :=
        { st1 with accumulatedChunks := rest
                   isAccumulating := if rest = [] then false else st1.isAccumulating }
      sendDataToServer cfg st2 (some nextBlob) currentStart currentEnd none
  else (st1, none)

/-! ## YouTube live check (`isYouTubeLiveNow`) -/

/-- Abstract view of the DOM facts `isYouTubeLiveNow` queries: whether the
`.ytp-time-display` element exists and carries the `ytp-live` class, the
`textContent` of the premiere/subtitle element (`none` when
`querySelector` finds no element; a null `textContent` behaves like the
empty string, which fails the same truthiness check), and whether the
control-bar live-indicator toggle element exists. -/
structure YouTubePage where
  timeDisplayPresent : Bool
  timeDisplayLiveClass : Bool
  premiereText : Option (List Char)
  liveControlDotPresent : Bool
deriving Repr, DecidableEq

/-- `premiereText && (includes PREMIERE || includes 首播 || includes UPCOMING)`
after `toUpperCase()`. -/
def premiereIndicator (txt : List Char) : Bool :=
  let up := txt.map Char.toUpper
  !up.isEmpty &&
    (decide ("PREMIERE".toList <:+: up) || decide ("首播".toList <:+: up) ||
      decide ("UPCOMING".toList <:+: up))

def isYouTubeLiveNow (p : YouTubePage) : Bool :=
  -- time-display class check comes first and short-circuits with `true`
  if p.timeDisplayPresent && p.timeDisplayLiveClass then true
  -- explicit premiere / upcoming indicator forces false
  else if p.premiereText.elim false premiereIndicator then false
  -- red LIVE control dot
  else if p.liveControlDotPresent then true
  else false

/-! ## Realtime chat observer (`observerCallback` in `startChatObserver`) -/

/-- `(n + 2^31) % 2^32 - 2^31`: wrap an integer to signed 32 bits,
modelling `hash |= 0`. -/
def toInt32 (n : Int) : Int := (n + 2 ^ 31) % 2 ^ 32 - 2 ^ 31

/-- `generateHash`: the 31-based string hash over char codes, with the
JS `<<` and `|= 0` coercions wrapping to signed 32 bits at each step;
returns `none` for a falsy input string. -/
def generateHash (s : String) : Option String :=
  if s = "" then none
  else some (toString (s.toList.foldl
    (fun h c => toInt32 (toInt32 (h * 32) - h + (c.toNat : Int))) 0))

/-- JS `a || b` on nullable strings: `a` unless it is null/empty. -/
def jsOr (a b : Option String) : Option String :=
  match a with
  | some s => if s = "" then b else some s
  | none => b

/-- The `{displayName, content}` pair an adapter's
`extractRealtimeChatData` returns (plus an optional platform uid). -/
structure ExtractedChat where
  uname : String
  content : String
  uid : Option String
deriving Repr, DecidableEq

/-- `buffer.slice(-20)`: the last (at most) 20 entries. -/
def lastN (n : Nat) (l : List α) : List α := l.drop (l.length - n)

/-- Handling of one extracted message node inside the observer callback:
build the stamped `newChat`, check the last 20 buffered messages for a
near-duplicate within 5000 ms, and append when none is found.  The entry
guard mirrors `chatData.uname && (chatData.content || chatData.content === '')`:
an empty display name is rejected, an empty content is allowed.  Nat
subtraction `now - 5000` truncates at 0 exactly like the JS comparison
against a negative bound succeeds for every nonnegative timestamp. -/
def observerHandleChat (buf : List ChatMessage) (platformName : String)
    (cd : ExtractedChat) (now : Nat) : List ChatMessage :=
  if cd.uname = "" then buf
  else
    let newChat : ChatMessage :=
      { uname := cd.uname, content := cd.content
        uid := jsOr cd.uid (generateHash cd.uname)
        platform := platformName, timestamp := now }
    let bufferToCheck := lastN 20 buf
    let isDuplicate := bufferToCheck.any fun e =>
      decide (now - 5000 ≤ e.timestamp) &&
        decide (e.uname = newChat.uname) &&
        decide (e.content = newChat.content) &&
        decide (e.platform = newChat.platform)
    if isDuplicate then buf else buf ++ [newChat]

/-- The cap applied after each mutation batch:
`splice(0, length - MAX_BUFFER_SIZE)` when over 500 entries. -/
def trimBuffer (buf : List ChatMessage) : List ChatMessage :=
  if buf.length > MAX_BUFFER_SIZE then buf.drop (buf.length - MAX_BUFFER_SIZE)
  else buf

/-! ## Message splitter (`splitMessage`) -/

inductive Platform
  | Bilibili
  | YouTube
  | Twitch
deriving Repr, DecidableEq

/-- The dynamic limit: `FORCE_CHAT_LENGTH` override first, then the
per-platform values, then the module default.  `none` models a missing
`currentPlatformAdapter` (optional chaining yields `undefined`). -/
def currentMaxChatLength (p : Option Platform) : Nat :=
  if FORCE_CHAT_LENGTH > 0 then FORCE_CHAT_LENGTH
  else
    match p with
    | some .YouTube => 100
    | some .Bilibili => 20
    | some .Twitch => 100
    | none => MAX_CHAT_LENGTH

/-- Membership in the separator class `[\s,.!?，。！？]`. -/
def isSepChar (c : Char) : Bool :=
  c.isWhitespace || c = ',' || c = '.' || c = '!' || c = '?' ||
    c = '，' || c = '。' || c = '！' || c = '？'

/-- `for (let i = 0; i < chunk.length; i += limit) parts.push(chunk.slice(i, i + limit))`.
The `limit = 0` case (unreachable: the active limit is 20 or 100) is cut
short to keep the function total. -/
def hardCut (limit : Nat) (l : List Char) : List (List Char) :=
  if h : l = [] then []
  else if h0 : limit = 0 then [l]
  else l.take limit :: hardCut limit (l.drop limit)
termination_by l.length
decreasing_by
  have h1 : 0 < l.length := List.length_pos.mpr h
  simp only [List.length_drop]
  omega

/-- Accumulator-based scan for the maximal runs of non-separator characters,
in order.  These are exactly the nonempty `chunk`s the regex loop visits
(each `trim()` is the identity because a run contains no whitespace). -/
def nonSepRunsAux : List Char → List Char → List (List Char)
  | [], acc => if acc = [] then [] else [acc.reverse]
  | c :: rest, acc =>
    if isSepChar c then
      if acc = [] then nonSepRunsAux rest []
      else acc.reverse :: nonSepRunsAux rest []
    else nonSepRunsAux rest (c :: acc)

def nonSepRuns (l : List Char) : List (List Char) := nonSepRunsAux l []

/-- The loop body for one separator match: fold `chunk` into
`(parts, currentPart)`. -/
def procChunk (limit : Nat) (st : List (List Char) × List Char)
    (chunk : List Char) : List (List Char) × List Char :=
  let (parts, currentPart) := st
  if chunk = [] then st
  else
    let potentialPart :=
      if currentPart = [] then chunk else currentPart ++ ' ' :: chunk
    if potentialPart.length ≤ limit then (parts, potentialPart)
    else
      let parts1 := if currentPart = [] then parts else parts ++ [currentPart]
      if chunk.length ≤ limit then (parts1, chunk)
      else (parts1 ++ hardCut limit chunk, [])

/-- The post-loop handling of `finalChunk` (the text after the last
separator match; empty when the message ends in a separator run). -/
def finishParts (limit : Nat) (st : List (List Char) × List Char)
    (finalChunk : List Char) : List (List Char) :=
  let (parts, currentPart) := st
  if finalChunk = [] then
    if currentPart = [] then parts else parts ++ [currentPart]
  else
    let potentialPart :=
      if currentPart = [] then finalChunk else currentPart ++ ' ' :: finalChunk
    if potentialPart.length ≤ limit then parts ++ [potentialPart]
    else
      let parts1 := if currentPart = [] then parts else parts ++ [currentPart]
      parts1 ++ hardCut limit finalChunk

/-- `splitMessage(message)` over the active platform, on code points. -/
def splitMessage (p : Option Platform) (msg : List Char) : List (List Char) :=
  let limit := currentMaxChatLength p
  if msg = [] then []
  else if msg.length ≤ limit then [msg]
  else
    let runs := nonSepRuns msg
    let endsSep := (msg.getLast?.map isSepChar).getD false
    let loopChunks := if endsSep then runs else runs.dropLast
    let finalChunk := if endsSep then [] else (runs.getLast?).getD []
    let st := loopChunks.foldl (procChunk limit) ([], [])
    let parts := finishParts limit st finalChunk
    if parts = [] then hardCut limit msg else parts

/-! ## Chat send queue (`processChatQueue`) -/

/-- The status strings an adapter's `sendChatMessage` resolves with; `other`
stands for any unrecognized status, which the `default` arm treats like
`error`. -/
inductive SendStatus
  | success
  | disabled
  | notFound
  | notImplemented
  | error
  | other
deriving Repr, DecidableEq

structure QueueState where
  chatQueue : List String
  isProcessingQueue : Bool
  isChatPermissionGranted : Bool
  isAgentRunning : Bool
deriving Repr, DecidableEq

/-- Outcome of one `processChatQueue()` invocation: the new module state,
the message whose send was attempted (if any), and the delay passed to the
`setTimeout` that was scheduled (if any). -/
structure QueueStepResult where
  state : QueueState
  attempted : Option String
  delay : Option Nat
deriving Repr, DecidableEq

/-- `Math.floor(Math.random() * (max - min + 1)) + min`, with the random
draw abstracted as an arbitrary natural `k` reduced mod the span. -/
def getRandomInt (min max k : Nat) : Nat := min + k % (max - min + 1)

/-- One `processChatQueue()` invocation; `send` is the adapter's
`sendChatMessage` and `k` feeds the delay randomization.  In branches that
schedule a retry via `setTimeout`, `isProcessingQueue` stays `true` until
the timer fires.  In the success branch whose rescheduling condition
fails, the immediate recursive call either finds an empty queue or (when
permission/running flipped, impossible here since the state is held fixed
within the step) clears it, so the queue equals `rest` there. -/
def processChatQueueStep (st : QueueState) (send : String → SendStatus)
    (k : Nat) : QueueStepResult :=
  if st.isProcessingQueue then ⟨st, none, none⟩
  else
    match st.chatQueue with
    | [] => ⟨{ st with isProcessingQueue := false }, none, none⟩
    | msg :: rest =>
      if ¬ st.isChatPermissionGranted ∨ ¬ st.isAgentRunning then
        ⟨{ st with chatQueue := [], isProcessingQueue := false }, none, none⟩
      else
        match send msg with
        | .success =>
          if rest ≠ [] ∧ st.isAgentRunning ∧ st.isChatPermissionGranted then
            ⟨{ st with chatQueue := rest, isProcessingQueue := true }, some msg,
              some (getRandomInt CHAT_SEND_DELAY_MIN_MS CHAT_SEND_DELAY_MAX_MS k)⟩
          else
            ⟨{ st with chatQueue := rest, isProcessingQueue := false }, some msg, none⟩
        | .disabled =>
          ⟨{ st with chatQueue := msg :: rest, isProcessingQueue := true }, some msg,
            some (getRandomInt 3000 7000 k)⟩
        | .notFound =>
          ⟨{ st with chatQueue := rest, isProcessingQueue := false }, some msg, none⟩
        | .notImplemented =>
          ⟨{ st with chatQueue := rest, isProcessingQueue := false }, some msg, none⟩
        | _ =>
          ⟨{ st with chatQueue := msg :: rest, isProcessingQueue := true }, some msg,
            some (getRandomInt 5000 10000 k)⟩

/-- A scheduled retry firing: the timer callback clears the lock and
re-invokes `processChatQueue`. -/
def queueTick (st : QueueState) (send : String → SendStatus)
    (k : Nat) : QueueStepResult :=
  processChatQueueStep { st with isProcessingQueue := false } send k

/-- Run a sequence of ticks, collecting every attempted message. -/
def runQueue (send : String → SendStatus) :
    QueueState → List Nat → QueueState × List String
  | st, [] => (st, [])
  | st, k :: ks =>
    let r := queueTick st send k
    let rest := runQueue send r.state ks
    (rest.1, r.attempted.toList ++ rest.2)

/-! ## Server response parser (`parseServerResponse`) -/

/-- The backend's JSON payload: every recognized field may be absent.
`chat_messages` items are reduced to their `content` field (`none` when
the item has no string content). -/
structure WireResponse where
  status : Option String
  message : Option String
  chat_messages : Option (List (Option String))
  internal_think : Option String
  continues : Option Int
  new_notepad : Option (List String)
  context_cleared : Option Bool
  recognized_text_youdao : Option String
  recognized_text_whisper : Option String
  image_url : Option String
  LLM_response_raw : Option String
deriving Repr, DecidableEq

/-- The normalized internal shape. -/
structure ServerResponse where
  messages : List String
  think : Option String
  continues : Option Int
  notepadNotes : List String
  contextCleared : Bool
  youdao : Option String
  whisper : Option String
  imageUrl : Option String
  raw : String
deriving Repr, DecidableEq

/-- `parseServerResponse(resp)`: map then filter for actionable string
contents; `x || null` for the nullable strings; `!!` for the flag;
`x || ''` for the raw output. -/
def parseServerResponse (resp : WireResponse) : ServerResponse :=
  { messages :=
      match resp.chat_messages with
      | some items => (items.filterMap id).filter fun s => !(s.trim == "")
      | none => []
    think := jsOr resp.internal_think none
    continues := resp.continues
    notepadNotes := resp.new_notepad.getD []
    contextCleared := resp.context_cleared.getD false
    youdao := jsOr resp.recognized_text_youdao none
    whisper := jsOr resp.recognized_text_whisper none
    imageUrl := jsOr resp.image_url none
    raw := (jsOr resp.LLM_response_raw none).getD "" }

/-- The enqueue step inside the `status === 'success'` branch of the
upload completion handler: split each actionable message and push the
fragments onto the send queue, but only when some message exists and chat
permission is granted. -/
def handleServerSuccess (p : Option Platform) (perm : Bool)
    (queue : List (List Char)) (resp : WireResponse) : List (List Char) :=
  let parsed := parseServerResponse resp
  if parsed.messages.length > 0 then
    if perm then
      queue ++ (parsed.messages.map fun m => splitMessage p m.toList).flatten
    else queue
  else queue

/-! ## Helper lemmas about the upload client -/

/-- Whatever branch `sendDataToServer` takes, the realtime buffer ends up
pruned to `timestamp >= end`. -/
theorem sendDataToServer_buffer (cfg : Config) (st : AgentState)
    (audioBlob : Option Blob) (s e : Nat) (shot : Option Blob) :
    (sendDataToServer cfg st audioBlob s e shot).1.realtimeChatBuffer =
      pruneBuffer st.realtimeChatBuffer e := by
  unfold sendDataToServer
  cases audioBlob <;> dsimp only <;> split_ifs <;> rfl

/-- Any request `sendDataToServer` emits carries exactly the interval's chat
slice of the pre-call buffer. -/
theorem sendDataToServer_req_chats (cfg : Config) (st : AgentState)
    (audioBlob : Option Blob) (s e : Nat) (shot : Option Blob) :
    ∀ req ∈ (sendDataToServer cfg st audioBlob s e shot).2,
      req.chats = chatsFor st.realtimeChatBuffer s e := by
  unfold sendDataToServer
  cases audioBlob <;> dsimp only <;> split_ifs <;> simp

/-- Claim C1: for every rolling-buffer state and interval bounds
start < end, the upload finalized for that interval carries exactly the
buffered chat messages with `start <= timestamp < end`, and immediately
after finalize the buffer retains exactly the messages with
`timestamp >= end`. -/
theorem interval_attribution (cfg : Config) (st : AgentState)
    (audioBlob : Option Blob) (s e : Nat) (shot : Option Blob) (hse : s < e) :
    (∀ req ∈ (sendDataToServer cfg st audioBlob s e shot).2,
      ∀ m : ChatMessage,
        m ∈ req.chats ↔ m ∈ st.realtimeChatBuffer ∧ s ≤ m.timestamp ∧ m.timestamp < e) ∧
    (∀ m : ChatMessage,
      m ∈ (sendDataToServer cfg st audioBlob s e shot).1.realtimeChatBuffer ↔
        m ∈ st.realtimeChatBuffer ∧ e ≤ m.timestamp) := by
  constructor
  · intro req hreq m
    rw [sendDataToServer_req_chats cfg st audioBlob s e shot req hreq]
    simp [chatsFor, chatInInterval, List.mem_filter, and_assoc]
  · intro m
    rw [sendDataToServer_buffer]
    simp [pruneBuffer, List.mem_filter]

/-- Witness for C1: the spec's five-message scenario with messages at
start-1, start, start+5000, end-1 and end for the interval
[10000, 40000): the upload keeps exactly the middle three and the buffer
keeps exactly the one at end. -/
theorem interval_attribution_witness :
    (10000 : Nat) < 40000 ∧
    ((∀ req ∈ (sendDataToServer ⟨some "room1", "Bilibili"⟩
        ⟨[⟨"u1", "a", none, "Bilibili", 9999⟩, ⟨"u2", "b", none, "Bilibili", 10000⟩,
          ⟨"u3", "c", none, "Bilibili", 15000⟩, ⟨"u4", "d", none, "Bilibili", 39999⟩,
          ⟨"u5", "e", none, "Bilibili", 40000⟩], false, false, []⟩
        (some ⟨[7], "audio/webm"⟩) 10000 40000 none).2,
      ∀ m : ChatMessage,
        m ∈ req.chats ↔ m ∈ [⟨"u1", "a", none, "Bilibili", 9999⟩, ⟨"u2", "b", none, "Bilibili", 10000⟩,
          ⟨"u3", "c", none, "Bilibili", 15000⟩, ⟨"u4", "d", none, "Bilibili", 39999⟩,
          ⟨"u5", "e", none, "Bilibili", 40000⟩] ∧ 10000 ≤ m.timestamp ∧ m.timestamp < 40000) ∧
    (∀ m : ChatMessage,
      m ∈ (sendDataToServer ⟨some "room1", "Bilibili"⟩
        ⟨[⟨"u1", "a", none, "Bilibili", 9999⟩, ⟨"u2", "b", none, "Bilibili", 10000⟩,
          ⟨"u3", "c", none, "Bilibili", 15000⟩, ⟨"u4", "d", none, "Bilibili", 39999⟩,
          ⟨"u5", "e", none, "Bilibili", 40000⟩], false, false, []⟩
        (some ⟨[7], "audio/webm"⟩) 10000 40000 none).1.realtimeChatBuffer ↔
        m ∈ [⟨"u1", "a", none, "Bilibili", 9999⟩, ⟨"u2", "b", none, "Bilibili", 10000⟩,
          ⟨"u3", "c", none, "Bilibili", 15000⟩, ⟨"u4", "d", none, "Bilibili", 39999⟩,
          ⟨"u5", "e", none, "Bilibili", 40000⟩] ∧ 40000 ≤ m.timestamp)) :=
  ⟨by decide, interval_attribution _ _ _ _ _ _ (by decide)⟩

/-- A finalize that arrives while a request is in flight only prunes the
buffer and accumulates the (nonempty) audio blob: nothing is sent. -/
theorem sendDataToServer_deferred (cfg : Config) (st : AgentState) (b : Blob)
    (s e : Nat) (shot : Option Blob) (hsend : st.isSending = true)
    (hb : 0 < b.size) :
    sendDataToServer cfg st (some b) s e shot =
      ({ realtimeChatBuffer := pruneBuffer st.realtimeChatBuffer e
         isSending := true
         isAccumulating := true
         accumulatedChunks :=
           if st.isAccumulating then st.accumulatedChunks ++ [b] else [b] },
        none) := by
  have hcond : ((some b).all fun x => x.size == 0) = false := by
    simp [Option.all]
    omega
  cases hacc : st.isAccumulating <;>
    simp [sendDataToServer, hcond, hsend, hacc, hb]

/-- Any request the completion handler emits (by draining the
accumulation) carries the chat slice of the already-pruned buffer for the
closure's interval. -/
theorem uploadComplete_req_chats (cfg : Config) (st : AgentState) (s e : Nat) :
    ∀ req ∈ (uploadComplete cfg st s e).2,
      req.chats = chatsFor st.realtimeChatBuffer s e := by
  intro req hreq
  cases hch : st.accumulatedChunks with
  | nil => simp [uploadComplete, hch] at hreq
  | cons nb rest =>
    cases hacc : st.isAccumulating with
    | false => simp [uploadComplete, hch, hacc] at hreq
    | true =>
      have heq : uploadComplete cfg st s e =
          sendDataToServer cfg
            { realtimeChatBuffer := st.realtimeChatBuffer, isSending := false
              isAccumulating := if rest = [] then false else true
              accumulatedChunks := rest } (some nb) s e none := by
        simp [uploadComplete, hch, hacc]
      rw [heq] at hreq
      have hc := sendDataToServer_req_chats cfg
        ⟨st.realtimeChatBuffer, false, if rest = [] then false else true, rest⟩
        (some nb) s e none req hreq
      exact hc

/-- After pruning at `e1`, the chat slice of any interval ending at
`e0 ≤ e1` is empty. -/
theorem chatsFor_pruneBuffer_eq_nil (buf : List ChatMessage) (s e0 e1 : Nat)
    (h : e0 ≤ e1) : chatsFor (pruneBuffer buf e1) s e0 = [] := by
  apply List.filter_eq_nil_iff.mpr
  intro c hc
  have hc1 : e1 ≤ c.timestamp := by
    have := List.of_mem_filter hc
    simpa using this
  simp [chatInInterval]
  intro _
  omega

/-- Counterexample to claim C3: an upload for [0, 30000) is in flight; the
interval [30000, 60000) finalizes with a buffered message at 35000 and a
nonempty audio blob.  The deferred finalize sends nothing and prunes the
message from the buffer, and the later upload that carries the
accumulated audio has an empty chat array — the message is attached to no
upload at all, contradicting "no chat message is lost". -/
theorem deferred_chat_lost_counterexample :
    (⟨"alice", "hello", none, "Bilibili", 35000⟩ : ChatMessage) ∈
      (⟨[⟨"alice", "hello", none, "Bilibili", 35000⟩], true, false, []⟩ :
        AgentState).realtimeChatBuffer ∧
    (sendDataToServer ⟨some "room1", "Bilibili"⟩
      ⟨[⟨"alice", "hello", none, "Bilibili", 35000⟩], true, false, []⟩
      (some ⟨[1, 2, 3], "audio/webm"⟩) 30000 60000 none).2 = none ∧
    (⟨"alice", "hello", none, "Bilibili", 35000⟩ : ChatMessage) ∉
      (sendDataToServer ⟨some "room1", "Bilibili"⟩
        ⟨[⟨"alice", "hello", none, "Bilibili", 35000⟩], true, false, []⟩
        (some ⟨[1, 2, 3], "audio/webm"⟩) 30000 60000 none).1.realtimeChatBuffer ∧
    ((uploadComplete ⟨some "room1", "Bilibili"⟩
        (sendDataToServer ⟨some "room1", "Bilibili"⟩
          ⟨[⟨"alice", "hello", none, "Bilibili", 35000⟩], true, false, []⟩
          (some ⟨[1, 2, 3], "audio/webm"⟩) 30000 60000 none).1 0 30000).2.map
      UploadRequest.audio) = some (some ⟨[1, 2, 3], "audio/webm"⟩) ∧
    ((uploadComplete ⟨some "room1", "Bilibili"⟩
        (sendDataToServer ⟨some "room1", "Bilibili"⟩
          ⟨[⟨"alice", "hello", none, "Bilibili", 35000⟩], true, false, []⟩
          (some ⟨[1, 2, 3], "audio/webm"⟩) 30000 60000 none).1 0 30000).2.map
      UploadRequest.chats) = some [] := by
  decide

/-- Claim C3 amended: when an interval finalizes while an upload is in
flight, its chat messages are consumed from the rolling buffer but
attached to no upload: the deferred finalize sends nothing, and the later
request that carries the accumulated audio has an empty chat array (its
interval filter runs over the already-pruned buffer). -/
theorem deferred_interval_chat_dropped (cfg : Config) (st : AgentState)
    (b : Blob) (s1 e1 s0 e0 : Nat) (shot : Option Blob) (m : ChatMessage)
    (hsend : st.isSending = true) (hb : 0 < b.size) (he : e0 ≤ e1)
    (hm : m ∈ st.realtimeChatBuffer) (hlt : m.timestamp < e1) :
    (sendDataToServer cfg st (some b) s1 e1 shot).2 = none ∧
    m ∉ (sendDataToServer cfg st (some b) s1 e1 shot).1.realtimeChatBuffer ∧
    ∀ req ∈ (uploadComplete cfg
        (sendDataToServer cfg st (some b) s1 e1 shot).1 s0 e0).2,
      req.chats = [] ∧ m ∉ req.chats := by
  rw [sendDataToServer_deferred cfg st b s1 e1 shot hsend hb]
  refine ⟨rfl, ?_, ?_⟩
  · intro hmem
    have := List.of_mem_filter hmem
    simp at this
    omega
  · intro req hreq
    have hc := uploadComplete_req_chats cfg _ s0 e0 req hreq
    have hnil : chatsFor (pruneBuffer st.realtimeChatBuffer e1) s0 e0 = [] :=
      chatsFor_pruneBuffer_eq_nil st.realtimeChatBuffer s0 e0 e1 he
    rw [hc]
    constructor
    · exact hnil
    · rw [hnil]
      simp

/-- Witness for the amended C3 theorem at the counterexample's inputs. -/
theorem deferred_interval_chat_dropped_witness :
    ((⟨[⟨"alice", "hello", none, "Bilibili", 35000⟩], true, false, []⟩ :
        AgentState).isSending = true ∧
      0 < (⟨[1, 2, 3], "audio/webm"⟩ : Blob).size ∧ (30000 : Nat) ≤ 60000 ∧
      (⟨"alice", "hello", none, "Bilibili", 35000⟩ : ChatMessage) ∈
        (⟨[⟨"alice", "hello", none, "Bilibili", 35000⟩], true, false, []⟩ :
          AgentState).realtimeChatBuffer ∧
      (⟨"alice", "hello", none, "Bilibili", 35000⟩ : ChatMessage).timestamp < 60000) ∧
    ((sendDataToServer ⟨some "room1", "Bilibili"⟩
        ⟨[⟨"alice", "hello", none, "Bilibili", 35000⟩], true, false, []⟩
        (some ⟨[1, 2, 3], "audio/webm"⟩) 30000 60000 none).2 = none ∧
      (⟨"alice", "hello", none, "Bilibili", 35000⟩ : ChatMessage) ∉
        (sendDataToServer ⟨some "room1", "Bilibili"⟩
          ⟨[⟨"alice", "hello", none, "Bilibili", 35000⟩], true, false, []⟩
          (some ⟨[1, 2, 3], "audio/webm"⟩) 30000 60000 none).1.realtimeChatBuffer ∧
      ∀ req ∈ (uploadComplete ⟨some "room1", "Bilibili"⟩
          (sendDataToServer ⟨some "room1", "Bilibili"⟩
            ⟨[⟨"alice", "hello", none, "Bilibili", 35000⟩], true, false, []⟩
            (some ⟨[1, 2, 3], "audio/webm"⟩) 30000 60000 none).1 0 30000).2,
        req.chats = [] ∧
          (⟨"alice", "hello", none, "Bilibili", 35000⟩ : ChatMessage) ∉ req.chats) :=
  ⟨⟨by decide, by decide, by decide, by decide, by decide⟩,
    deferred_interval_chat_dropped _ _ _ 30000 60000 0 30000 none _
      (by decide) (by decide) (by decide) (by decide) (by decide)⟩

theorem mergeBlobs_pair (b1 b2 : Blob) :
    mergeBlobs [b1, b2] = ⟨b1.data ++ b2.data, b1.type⟩ := by
  simp [mergeBlobs]

/-- A free (lock not held) finalize with a nonempty audio blob, a live
accumulation and no screenshot sends one request whose audio is the
merge of the current blob with the accumulated chunks. -/
theorem sendDataToServer_merge_send (cfg : Config) (st : AgentState) (b : Blob)
    (s e : Nat) (hsend : st.isSending = false) (hacc : st.isAccumulating = true)
    (hchunks : st.accumulatedChunks ≠ []) (hb : 0 < b.size) :
    sendDataToServer cfg st (some b) s e none =
      ({ realtimeChatBuffer := pruneBuffer st.realtimeChatBuffer e
         isSending := true
         isAccumulating := false
         accumulatedChunks := [] },
        some { audio := some (mergeBlobs (b :: st.accumulatedChunks))
               chats := chatsFor st.realtimeChatBuffer s e
               roomId := cfg.roomId.getD "unknown"
               platform := cfg.platformName
               screenshot := none
               startTimestamp := s
               endTimestamp := e }) := by
  have hcond : ((some b).all fun x => x.size == 0) = false := by
    simp [Option.all]
    omega
  have hmsize : 0 < (mergeBlobs (b :: st.accumulatedChunks)).size := by
    simp [mergeBlobs, Blob.size]
    left
    exact hb
  simp [sendDataToServer, hcond, hsend, hacc, hchunks, hmsize]

/-- Claim C4: with an upload in flight and two further audio segments
produced before it completes, the request sent right after completion
carries the single blob `b1.data ++ b2.data` typed with `b1`'s encoding,
an empty chat array, and no screenshot. -/
theorem accumulation_merge (cfg : Config) (st : AgentState) (b1 b2 : Blob)
    (s0 e0 s1 e1 s2 e2 : Nat) (shot1 shot2 : Option Blob)
    (hsend : st.isSending = true) (hacc : st.isAccumulating = false)
    (hb1 : 0 < b1.size) (hb2 : 0 < b2.size) (h01 : e0 ≤ e1) (h12 : e1 ≤ e2) :
    (uploadComplete cfg
        (sendDataToServer cfg
          (sendDataToServer cfg st (some b1) s1 e1 shot1).1
          (some b2) s2 e2 shot2).1 s0 e0).2 =
      some { audio := some ⟨b1.data ++ b2.data, b1.type⟩
             chats := []
             roomId := cfg.roomId.getD "unknown"
             platform := cfg.platformName
             screenshot := none
             startTimestamp := s0
             endTimestamp := e0 } := by
  rw [sendDataToServer_deferred cfg st b1 s1 e1 shot1 hsend hb1]
  rw [hacc]
  simp only [if_false, Bool.false_eq_true]
  rw [sendDataToServer_deferred cfg _ b2 s2 e2 shot2 rfl hb2]
  simp only [if_true]
  unfold uploadComplete
  simp only []
  rw [if_pos (by simp)]
  simp only [List.singleton_append]
  rw [sendDataToServer_merge_send cfg _ b1 s0 e0 rfl rfl (by simp) hb1]
  simp only [mergeBlobs_pair]
  rw [chatsFor_pruneBuffer_eq_nil _ s0 e0 e2 (by omega)]

/-- Witness for C4: two concrete segments accumulated behind an in-flight
upload are merged oldest-first into the completion-triggered request. -/
theorem accumulation_merge_witness :
    ((⟨[], true, false, []⟩ : AgentState).isSending = true ∧
      (⟨[], true, false, []⟩ : AgentState).isAccumulating = false ∧
      0 < (⟨[1, 2, 3], "audio/webm"⟩ : Blob).size ∧
      0 < (⟨[4, 5], "audio/webm"⟩ : Blob).size ∧
      (30000 : Nat) ≤ 60000 ∧ (60000 : Nat) ≤ 90000) ∧
    (uploadComplete ⟨some "room1", "Bilibili"⟩
        (sendDataToServer ⟨some "room1", "Bilibili"⟩
          (sendDataToServer ⟨some "room1", "Bilibili"⟩ ⟨[], true, false, []⟩
            (some ⟨[1, 2, 3], "audio/webm"⟩) 30000 60000 none).1
          (some ⟨[4, 5], "audio/webm"⟩) 60000 90000 none).1 0 30000).2 =
      some { audio := some ⟨[1, 2, 3] ++ [4, 5], "audio/webm"⟩
             chats := []
             roomId := (⟨some "room1", "Bilibili"⟩ : Config).roomId.getD "unknown"
             platform := (⟨some "room1", "Bilibili"⟩ : Config).platformName
             screenshot := none
             startTimestamp := 0
             endTimestamp := 30000 } :=
  ⟨⟨by decide, by decide, by decide, by decide, by decide, by decide⟩,
    accumulation_merge ⟨some "room1", "Bilibili"⟩ ⟨[], true, false, []⟩
      ⟨[1, 2, 3], "audio/webm"⟩ ⟨[4, 5], "audio/webm"⟩ 0 30000 30000 60000 60000 90000
      none none (by decide) (by decide) (by decide) (by decide) (by decide) (by decide)⟩

/-- Counterexample to claim C2: the time-display class check runs first
and returns `true` before the premiere check, so a page whose
time-display carries the live class is classified live even though an
explicit PREMIERE text indicator is present. -/
theorem premiere_override_counterexample :
    premiereIndicator "PREMIERE IN 2 HOURS".toList = true ∧
    isYouTubeLiveNow ⟨true, true, some "PREMIERE IN 2 HOURS".toList, false⟩ = true := by
  decide

/-- Claim C2 amended: an explicit premiere/upcoming text indicator forces
the not-live classification regardless of the control-bar live-indicator
toggle, but only when the time-display element does not carry the live
class (that earlier check short-circuits to live). -/
theorem premiere_forces_not_live (p : YouTubePage)
    (h1 : (p.timeDisplayPresent && p.timeDisplayLiveClass) = false)
    (h2 : p.premiereText.elim false premiereIndicator = true) :
    isYouTubeLiveNow p = false := by
  unfold isYouTubeLiveNow
  rw [h1, h2]
  rfl

/-- Witness for the amended C2 theorem: an upcoming page whose control-bar
live dot is present is still classified not live. -/
theorem premiere_forces_not_live_witness :
    (((⟨false, true, some "UPCOMING".toList, true⟩ : YouTubePage).timeDisplayPresent &&
        (⟨false, true, some "UPCOMING".toList, true⟩ : YouTubePage).timeDisplayLiveClass) = false ∧
      (⟨false, true, some "UPCOMING".toList, true⟩ : YouTubePage).premiereText.elim
        false premiereIndicator = true) ∧
    isYouTubeLiveNow ⟨false, true, some "UPCOMING".toList, true⟩ = false :=
  ⟨⟨by decide, by decide⟩,
    premiere_forces_not_live ⟨false, true, some "UPCOMING".toList, true⟩
      (by decide) (by decide)⟩

/-- The near-duplicate condition of the observer, stated over the last 20
buffered messages with the timestamp distance made explicit. -/
def DupIn (buf : List ChatMessage) (cd : ExtractedChat)
    (platformName : String) (now : Nat) : Prop :=
  ∃ e ∈ lastN 20 buf, e.uname = cd.uname ∧ e.content = cd.content ∧
    e.platform = platformName ∧ Nat.dist e.timestamp now ≤ 5000

instance (buf : List ChatMessage) (cd : ExtractedChat) (pn : String)
    (now : Nat) : Decidable (DupIn buf cd pn now) := by
  unfold DupIn
  infer_instance

/-- For buffers whose timestamps do not exceed the stamping clock, the
boolean check the observer runs agrees with `DupIn`. -/
theorem observer_any_iff_DupIn (buf : List ChatMessage) (cd : ExtractedChat)
    (platformName : String) (now : Nat)
    (hmono : ∀ m ∈ buf, m.timestamp ≤ now) :
    (((lastN 20 buf).any fun e =>
        decide (now - 5000 ≤ e.timestamp) && decide (e.uname = cd.uname) &&
        decide (e.content = cd.content) && decide (e.platform = platformName)) = true) ↔
      DupIn buf cd platformName now := by
  rw [List.any_eq_true]
  constructor
  · rintro ⟨e, he, hp⟩
    have hle : e.timestamp ≤ now := hmono e (List.mem_of_mem_drop he)
    simp only [Bool.and_eq_true, decide_eq_true_eq] at hp
    obtain ⟨⟨⟨h1, h2⟩, h3⟩, h4⟩ := hp
    have hd : Nat.dist e.timestamp now = now - e.timestamp :=
      Nat.dist_eq_sub_of_le hle
    exact ⟨e, he, h2, h3, h4, by rw [hd]; omega⟩
  · rintro ⟨e, he, h2, h3, h4, h5⟩
    have hle : e.timestamp ≤ now := hmono e (List.mem_of_mem_drop he)
    have hd : Nat.dist e.timestamp now = now - e.timestamp :=
      Nat.dist_eq_sub_of_le hle
    rw [hd] at h5
    refine ⟨e, he, ?_⟩
    simp only [Bool.and_eq_true, decide_eq_true_eq]
    exact ⟨⟨⟨by omega, h2⟩, h3⟩, h4⟩

/-- Claim C5: a newly observed chat event is dropped exactly when one of
the last 20 buffered messages matches its display name, content and
platform with a timestamp within 5000 ms; otherwise it is appended. -/
theorem duplicate_suppression (buf : List ChatMessage) (platformName : String)
    (cd : ExtractedChat) (now : Nat) (hname : cd.uname ≠ "")
    (hmono : ∀ m ∈ buf, m.timestamp ≤ now) :
    (DupIn buf cd platformName now →
      observerHandleChat buf platformName cd now = buf) ∧
    (¬ DupIn buf cd platformName now →
      observerHandleChat buf platformName cd now =
        buf ++ [{ uname := cd.uname, content := cd.content
                  uid := jsOr cd.uid (generateHash cd.uname)
                  platform := platformName, timestamp := now }]) := by
  have key := observer_any_iff_DupIn buf cd platformName now hmono
  constructor
  · intro hdup
    simp only [observerHandleChat, if_neg hname]
    rw [if_pos (key.mpr hdup)]
  · intro hnd
    simp only [observerHandleChat, if_neg hname]
    rw [if_neg (fun h => hnd (key.mp h))]

/-- Witness for C5: two identical events 2000 ms apart (second dropped)
and two identical events 6000 ms apart (both retained). -/
theorem duplicate_suppression_witness :
    observerHandleChat [⟨"alice", "hi", jsOr none (generateHash "alice"), "Bilibili", 100000⟩]
        "Bilibili" ⟨"alice", "hi", none⟩ 102000 =
      [⟨"alice", "hi", jsOr none (generateHash "alice"), "Bilibili", 100000⟩] ∧
    observerHandleChat [⟨"alice", "hi", jsOr none (generateHash "alice"), "Bilibili", 100000⟩]
        "Bilibili" ⟨"alice", "hi", none⟩ 106000 =
      [⟨"alice", "hi", jsOr none (generateHash "alice"), "Bilibili", 100000⟩,
        ⟨"alice", "hi", jsOr none (generateHash "alice"), "Bilibili", 106000⟩] :=
  ⟨(duplicate_suppression _ "Bilibili" ⟨"alice", "hi", none⟩ 102000
      (by decide) (by decide)).1 (by decide),
    (duplicate_suppression _ "Bilibili" ⟨"alice", "hi", none⟩ 106000
      (by decide) (by decide)).2 (by decide)⟩

/-- The rolling buffer sorted by non-decreasing timestamp. -/
def TsSorted (l : List ChatMessage) : Prop :=
  l.Pairwise fun a b => a.timestamp ≤ b.timestamp

instance (l : List ChatMessage) : Decidable (TsSorted l) := by
  unfold TsSorted
  infer_instance

/-- The observer either drops the new event or appends it at the back. -/
theorem observerHandleChat_cases (buf : List ChatMessage) (platformName : String)
    (cd : ExtractedChat) (now : Nat) :
    observerHandleChat buf platformName cd now = buf ∨
    observerHandleChat buf platformName cd now =
      buf ++ [⟨cd.uname, cd.content, jsOr cd.uid (generateHash cd.uname),
        platformName, now⟩] := by
  unfold observerHandleChat
  split_ifs
  · exact Or.inl rfl
  · exact ite_eq_or_eq _ _ _

/-- Claim C10: every mutation of the realtime chat buffer — the observer
append stamped with the current clock, the 500-entry cap trim from the
front, and the upload-time prune to `timestamp >= end` — preserves sorting
by non-decreasing timestamp. -/
theorem buffer_sorted_invariant (buf : List ChatMessage) (hs : TsSorted buf) :
    (∀ (platformName : String) (cd : ExtractedChat) (now : Nat),
      (∀ m ∈ buf, m.timestamp ≤ now) →
        TsSorted (observerHandleChat buf platformName cd now)) ∧
    TsSorted (trimBuffer buf) ∧
    (∀ (cfg : Config) (st : AgentState) (audioBlob : Option Blob)
        (s e : Nat) (shot : Option Blob),
      st.realtimeChatBuffer = buf →
        TsSorted ((sendDataToServer cfg st audioBlob s e shot).1.realtimeChatBuffer)) := by
  refine ⟨?_, ?_, ?_⟩
  · intro platformName cd now hmono
    rcases observerHandleChat_cases buf platformName cd now with h | h <;> rw [h]
    · exact hs
    · apply List.pairwise_append.mpr
      refine ⟨hs, List.pairwise_singleton _ _, ?_⟩
      intro a ha b hb
      rw [List.mem_singleton.mp hb]
      exact hmono a ha
  · unfold trimBuffer
    split_ifs with h
    · exact hs.drop
    · exact hs
  · intro cfg st audioBlob s e shot hbuf
    rw [sendDataToServer_buffer, hbuf]
    exact List.Pairwise.filter _ hs

/-- Witness for C10: a concrete sorted two-message buffer stays sorted
under all three operations. -/
theorem buffer_sorted_invariant_witness :
    TsSorted [⟨"u1", "a", none, "Bilibili", 100⟩, ⟨"u2", "b", none, "Bilibili", 200⟩] ∧
    ((∀ (platformName : String) (cd : ExtractedChat) (now : Nat),
      (∀ m ∈ [(⟨"u1", "a", none, "Bilibili", 100⟩ : ChatMessage),
              ⟨"u2", "b", none, "Bilibili", 200⟩], m.timestamp ≤ now) →
        TsSorted (observerHandleChat
          [⟨"u1", "a", none, "Bilibili", 100⟩, ⟨"u2", "b", none, "Bilibili", 200⟩]
          platformName cd now)) ∧
    TsSorted (trimBuffer
      [⟨"u1", "a", none, "Bilibili", 100⟩, ⟨"u2", "b", none, "Bilibili", 200⟩]) ∧
    (∀ (cfg : Config) (st : AgentState) (audioBlob : Option Blob)
        (s e : Nat) (shot : Option Blob),
      st.realtimeChatBuffer =
          [⟨"u1", "a", none, "Bilibili", 100⟩, ⟨"u2", "b", none, "Bilibili", 200⟩] →
        TsSorted ((sendDataToServer cfg st audioBlob s e shot).1.realtimeChatBuffer))) :=
  ⟨by decide, buffer_sorted_invariant _ (by decide)⟩

/-- Every piece a hard cut produces is at most `limit` long. -/
theorem hardCut_length_le (limit : Nat) (l : List Char) (hl : 0 < limit) :
    ∀ piece ∈ hardCut limit l, piece.length ≤ limit := by
  unfold hardCut
  split_ifs with h h0
  · simp
  · omega
  · intro piece hp
    rcases List.mem_cons.mp hp with hh | hh
    · subst hh
      simp [List.length_take]
    · exact hardCut_length_le limit (l.drop limit) hl piece hh
termination_by l.length
decreasing_by
  have h1 : 0 < l.length := List.length_pos.mpr h
  simp only [List.length_drop]
  omega

/-- Invariant of the splitter loop: all flushed parts and the part under
construction fit the limit. -/
def PartsOK (limit : Nat) (st : List (List Char) × List Char) : Prop :=
  (∀ x ∈ st.1, x.length ≤ limit) ∧ st.2.length ≤ limit

theorem procChunk_ok (limit : Nat) (hl : 0 < limit)
    (st : List (List Char) × List Char) (chunk : List Char)
    (h : PartsOK limit st) : PartsOK limit (procChunk limit st chunk) := by
  obtain ⟨h1, h2⟩ := h
  rcases st with ⟨parts, currentPart⟩
  dsimp only [PartsOK] at h1 h2
  unfold procChunk
  dsimp only
  by_cases hc : chunk = []
  · rw [if_pos hc]
    exact ⟨h1, h2⟩
  · rw [if_neg hc]
    have hparts1 : ∀ x ∈ (if currentPart = [] then parts else parts ++ [currentPart]),
        x.length ≤ limit := by
      split_ifs
      · exact h1
      · intro x hx
        rcases List.mem_append.mp hx with hh | hh
        · exact h1 x hh
        · rw [List.mem_singleton.mp hh]
          exact h2
    by_cases hpot :
        (if currentPart = [] then chunk else currentPart ++ ' ' :: chunk).length ≤ limit
    · rw [if_pos hpot]
      exact ⟨h1, hpot⟩
    · rw [if_neg hpot]
      by_cases hck : chunk.length ≤ limit
      · rw [if_pos hck]
        exact ⟨hparts1, hck⟩
      · rw [if_neg hck]
        refine ⟨?_, by simp⟩
        intro x hx
        rcases List.mem_append.mp hx with hh | hh
        · exact hparts1 x hh
        · exact hardCut_length_le limit chunk hl x hh

theorem foldl_procChunk_ok (limit : Nat) (hl : 0 < limit)
    (chunks : List (List Char)) (st : List (List Char) × List Char)
    (h : PartsOK limit st) :
    PartsOK limit (chunks.foldl (procChunk limit) st) := by
  induction chunks generalizing st with
  | nil => exact h
  | cons c cs ih => exact ih _ (procChunk_ok limit hl st c h)

theorem finishParts_ok (limit : Nat) (hl : 0 < limit)
    (st : List (List Char) × List Char) (finalChunk : List Char)
    (h : PartsOK limit st) :
    ∀ x ∈ finishParts limit st finalChunk, x.length ≤ limit := by
  obtain ⟨h1, h2⟩ := h
  rcases st with ⟨parts, currentPart⟩
  dsimp only [PartsOK] at h1 h2
  unfold finishParts
  dsimp only
  have hparts1 : ∀ x ∈ (if currentPart = [] then parts else parts ++ [currentPart]),
      x.length ≤ limit := by
    split_ifs
    · exact h1
    · intro x hx
      rcases List.mem_append.mp hx with hh | hh
      · exact h1 x hh
      · rw [List.mem_singleton.mp hh]
        exact h2
  by_cases hf : finalChunk = []
  · rw [if_pos hf]
    exact hparts1
  · rw [if_neg hf]
    by_cases hpot :
        (if currentPart = [] then finalChunk else currentPart ++ ' ' :: finalChunk).length ≤ limit
    · rw [if_pos hpot]
      intro x hx
      rcases List.mem_append.mp hx with hh | hh
      · exact h1 x hh
      · rw [List.mem_singleton.mp hh]
        exact hpot
    · rw [if_neg hpot]
      intro x hx
      rcases List.mem_append.mp hx with hh | hh
      · exact hparts1 x hh
      · exact hardCut_length_le limit finalChunk hl x hh

theorem currentMaxChatLength_pos (p : Option Platform) :
    0 < currentMaxChatLength p := by
  cases p with
  | none => decide
  | some pl => cases pl <;> decide

/-- Claim C6: every fragment the splitter returns fits the active
platform limit (100 for YouTube/Twitch, 20 for Bilibili and for the
default with no force-length override). -/
theorem split_length_bound (p : Option Platform) (msg : List Char) :
    ∀ part ∈ splitMessage p msg, part.length ≤ currentMaxChatLength p := by
  have hl := currentMaxChatLength_pos p
  have hok : PartsOK (currentMaxChatLength p) ([], []) :=
    ⟨by simp, by simp [PartsOK]⟩
  unfold splitMessage
  dsimp only
  split_ifs with h0 h1 h2 h3 h4
  · simp
  · intro part hp
    rw [List.mem_singleton.mp hp]
    exact h1
  · exact hardCut_length_le _ msg hl
  · exact finishParts_ok _ hl _ _ (foldl_procChunk_ok _ hl _ _ hok)
  · exact hardCut_length_le _ msg hl
  · exact finishParts_ok _ hl _ _ (foldl_procChunk_ok _ hl _ _ hok)

/-- Witness for C6: a concrete long Bilibili message; its first fragment
is in the result and fits the 20-character limit. -/
theorem split_length_bound_witness :
    "this is a long".toList ∈ splitMessage (some .Bilibili)
      "this is a long message, with punctuation! well over twenty chars".toList ∧
    "this is a long".toList.length ≤ currentMaxChatLength (some .Bilibili) :=
  ⟨by decide,
    split_length_bound (some .Bilibili)
      "this is a long message, with punctuation! well over twenty chars".toList
      "this is a long".toList (by decide)⟩

/-- Counterexample to claim C7 as universally stated: the splitter maps
the empty message (length 0, below every limit) to `[]`, not to the
one-element list containing the message. -/
theorem split_short_identity_counterexample :
    ("" : String).toList.length ≤ currentMaxChatLength (some .Bilibili) ∧
    splitMessage (some .Bilibili) ("" : String).toList = [] ∧
    splitMessage (some .Bilibili) ("" : String).toList ≠ [("" : String).toList] := by
  decide

/-- Claim C7 amended: for any nonempty message within the active limit the
splitter is the identity, returning the one-element list. -/
theorem split_short_identity (p : Option Platform) (msg : List Char)
    (hne : msg ≠ []) (hlen : msg.length ≤ currentMaxChatLength p) :
    splitMessage p msg = [msg] := by
  unfold splitMessage
  rw [if_neg hne, if_pos hlen]

/-- Witness for the amended C7 theorem: a short Bilibili message comes
back unchanged. -/
theorem split_short_identity_witness :
    ("hello world".toList ≠ [] ∧
      "hello world".toList.length ≤ currentMaxChatLength (some .Bilibili)) ∧
    splitMessage (some .Bilibili) "hello world".toList = ["hello world".toList] :=
  ⟨⟨by decide, by decide⟩,
    split_short_identity (some .Bilibili) "hello world".toList (by decide) (by decide)⟩

theorem getRandomInt_bounds (min max k : Nat) (h : min ≤ max) :
    min ≤ getRandomInt min max k ∧ getRandomInt min max k ≤ max := by
  unfold getRandomInt
  have hm : k % (max - min + 1) < max - min + 1 :=
    Nat.mod_lt k (by omega)
  omega

/-- As long as the head keeps coming back `disabled`, every tick leaves the
queue unchanged and only ever attempts the head message. -/
theorem runQueue_disabled_invariant (A B : String)
    (send : String → SendStatus) (hdis : send A = .disabled) :
    ∀ (ks : List Nat) (b : Bool),
      (runQueue send ⟨[A, B], b, true, true⟩ ks).1.chatQueue = [A, B] ∧
      ∀ m ∈ (runQueue send ⟨[A, B], b, true, true⟩ ks).2, m = A := by
  intro ks
  induction ks with
  | nil =>
    intro b
    exact ⟨rfl, by simp [runQueue]⟩
  | cons k ks ih =>
    intro b
    have hstep : queueTick ⟨[A, B], b, true, true⟩ send k =
        ⟨⟨[A, B], true, true, true⟩, some A, some (getRandomInt 3000 7000 k)⟩ := by
      simp [queueTick, processChatQueueStep, hdis]
    simp only [runQueue, hstep]
    refine ⟨(ih true).1, ?_⟩
    intro m hm
    rcases List.mem_append.mp hm with hh | hh
    · simpa using hh
    · exact (ih true).2 m hh

/-- Claim C8: sending the head `A` of queue `[A, B]` with outcome
`disabled` puts `A` back at the front (queue again `[A, B]`), schedules a
retry with a randomized delay in [3000, 7000] ms, and `B` is never
attempted while `A` keeps coming back disabled. -/
theorem queue_retry_ordering (A B : String) (send : String → SendStatus)
    (hdis : send A = .disabled) (hAB : A ≠ B) :
    (∀ k, processChatQueueStep ⟨[A, B], false, true, true⟩ send k =
      ⟨⟨[A, B], true, true, true⟩, some A, some (getRandomInt 3000 7000 k)⟩) ∧
    (∀ k, 3000 ≤ getRandomInt 3000 7000 k ∧ getRandomInt 3000 7000 k ≤ 7000) ∧
    (∀ ks : List Nat,
      (runQueue send ⟨[A, B], false, true, true⟩ ks).1.chatQueue = [A, B] ∧
      B ∉ (runQueue send ⟨[A, B], false, true, true⟩ ks).2) := by
  refine ⟨?_, ?_, ?_⟩
  · intro k
    simp [processChatQueueStep, hdis]
  · intro k
    exact getRandomInt_bounds 3000 7000 k (by omega)
  · intro ks
    obtain ⟨hq, hatt⟩ := runQueue_disabled_invariant A B send hdis ks false
    refine ⟨hq, fun hmem => ?_⟩
    exact hAB ((hatt B hmem).symm)

/-- Witness for C8: a concrete oracle that keeps `a` disabled; one step
re-queues `a` at the front with a 3042 ms delay, and `b` is never
attempted over three ticks. -/
theorem queue_retry_ordering_witness :
    ((fun m => if m = "a" then SendStatus.disabled else SendStatus.success) "a" =
      SendStatus.disabled ∧ "a" ≠ "b") ∧
    processChatQueueStep ⟨["a", "b"], false, true, true⟩
        (fun m => if m = "a" then SendStatus.disabled else SendStatus.success) 42 =
      ⟨⟨["a", "b"], true, true, true⟩, some "a", some 3042⟩ ∧
    "b" ∉ (runQueue (fun m => if m = "a" then SendStatus.disabled else SendStatus.success)
        ⟨["a", "b"], false, true, true⟩ [0, 5, 9999]).2 := by
  refine ⟨⟨by decide, by decide⟩, ?_, ?_⟩
  · rw [(queue_retry_ordering "a" "b" _ (by decide) (by decide)).1 42]
    decide
  · exact ((queue_retry_ordering "a" "b" _ (by decide) (by decide)).2.2 [0, 5, 9999]).2

/-- Claim C9: parsing a backend response containing only
`{"status":"success"}` yields a `ServerResponse` with every list field
empty and every scalar field absent/false, and enqueues nothing to the
send queue; the parse is total, so missing fields default instead of
failing. -/
theorem response_field_defaulting :
    parseServerResponse
        ⟨some "success", none, none, none, none, none, none, none, none, none, none⟩ =
      ⟨[], none, none, [], false, none, none, none, ""⟩ ∧
    ∀ (p : Option Platform) (perm : Bool) (queue : List (List Char)),
      handleServerSuccess p perm queue
        ⟨some "success", none, none, none, none, none, none, none, none, none, none⟩ =
      queue := by
  refine ⟨rfl, ?_⟩
  intro p perm queue
  simp [handleServerSuccess, parseServerResponse]

end LiveAgent
